/- Verification of the gasmon streaming pipeline (src/gasmon).

The pipeline stages live in src/gasmon/pipeline.py.  Each stage has a
`handle` method that is a Python generator: it pulls events from upstream,
reads the wall clock with `time.time()`, updates the mutable fields of the
stage and yields events downstream.  We embed each stage shallowly as a
function from an explicit state and a finite list of timed events to the
list of events it yields and its final state.  An event is paired with the
wall-clock instant at which it is pulled through the chain (the single
logical thread pushes each event through every stage before the next poll,
so one instant per event is faithful at the granularity the stages observe).

Numeric readings and clock values are rationals; event and location
identifiers are strings, as in the Python namedtuples. -/

import Mathlib

namespace Gasmon

/-- Event record from src/gasmon/receiver.py: namedtuple with fields
`location_id event_id value timestamp`. -/
structure Event where
  location_id : String
  event_id : String
  value : ℚ
  timestamp : ℚ
deriving DecidableEq, Repr

/-- Location record from src/gasmon/locations.py: namedtuple `x y id`. -/
structure Location where
  x : ℚ
  y : ℚ
  id : String
deriving DecidableEq, Repr

/-- An event paired with the wall-clock time at which it is pulled through
the chain. -/
abbrev TimedEvent : Type := ℚ × Event

/-- A pipeline stage with mutable state of type σ: from the current state
and the incoming event list, produce the outgoing event list and the final
state.  This is the `Pipeline.handle` capability of src/gasmon/pipeline.py. -/
def Stage (σ : Type) : Type := σ → List TimedEvent → List TimedEvent × σ

/-- Embeds `Pipeline.compose` together with `ComposedPipeline.handle`
(src/gasmon/pipeline.py): `a.compose(b)` stores `first := a`,
`second := b`, and handles events as `second.handle(first.handle(events))`,
so the receiver `a` runs first. -/
def compose {σ τ : Type} (first : Stage σ) (second : Stage τ) : Stage (σ × τ) :=
  fun s evs =>
    let r1 := first s.1 evs
    let r2 := second s.2 r1.1
    (r2.1, (r1.2, r2.2))

/-! FixedDurationSource (src/gasmon/pipeline.py, class FixedDurationSource).

Its `handle` computes `end_time = time.time() + self.run_time_seconds` when
the generator starts, then enters `for event in events:` — note the loop
pulls an item from upstream before the deadline check runs — and forwards
the item (counting it in `events_processed`) when `time.time() < end_time`,
otherwise returns.  The `consumed` field below counts upstream items the
loop pulled. -/

structure FDSResult where
  out : List TimedEvent
  events_processed : ℕ
  consumed : ℕ
deriving DecidableEq, Repr

/-- One run of `FixedDurationSource.handle` with deadline `end_time`,
counting both the forwarded events and the upstream items consumed by the
`for` loop. -/
def fds_run (end_time : ℚ) : List TimedEvent → FDSResult
  | [] => ⟨[], 0, 0⟩
  | te :: rest =>
    if te.1 < end_time then
      let r := fds_run end_time rest
      ⟨te :: r.out, r.events_processed + 1, r.consumed + 1⟩
    else
      ⟨[], 0, 1⟩

/-- FixedDurationSource as a stage: the state is the `events_processed`
field; `t0` is the wall-clock instant the generator starts (the first
pull), so the deadline is `t0 + run_time_seconds`. -/
def fds_stage (run_time_seconds t0 : ℚ) : Stage ℕ :=
  fun n evs =>
    let r := fds_run (t0 + run_time_seconds) evs
    (r.out, n + r.events_processed)

/-! RemoveDuplicates (src/gasmon/pipeline.py, class RemoveDuplicates).

State: `counter`, `event_id_cache` (a set of event ids, embedded as a
duplicate-free list), `start_time`; the window length `self.time` is 300
seconds.  Per pulled event: when `now - start_time >= 300`, reset the cache
and `start_time`; then drop the event and bump `counter` when its id is in
the cache, otherwise insert the id and yield the event. -/

structure RDState where
  counter : ℕ
  event_id_cache : List String
  start_time : ℚ
deriving DecidableEq, Repr

/-- One iteration of the `RemoveDuplicates.handle` loop body. -/
def rd_step (s : RDState) (te : TimedEvent) : List TimedEvent × RDState :=
  let cache := if te.1 - s.start_time ≥ 300 then [] else s.event_id_cache
  let start := if te.1 - s.start_time ≥ 300 then te.1 else s.start_time
  if te.2.event_id ∈ cache then
    ([], ⟨s.counter + 1, cache, start⟩)
  else
    ([te], ⟨s.counter, te.2.event_id :: cache, start⟩)

/-- `RemoveDuplicates.handle` over a finite pulled list. -/
def rd_handle : RDState → List TimedEvent → List TimedEvent × RDState
  | s, [] => ([], s)
  | s, te :: rest =>
    let r1 := rd_step s te
    let r2 := rd_handle r1.2 rest
    (r1.1 ++ r2.1, r2.2)

/-- Fresh `RemoveDuplicates()` state, constructed at wall-clock time `t`. -/
def rd_init (t : ℚ) : RDState := ⟨0, [], t⟩

def rd_stage : Stage RDState := rd_handle

/-! AverageValuesPerMinute (src/gasmon/pipeline.py, class
AverageValuesPerMinute).

State: `counter`, `start_time`, `average_values_timestamp`, `total_value`,
`average_values`.  Per pulled event: add the value to `total_value` and
increment `counter`; then, when `now - start_time >= 60`, append
`total_value / counter` and `now` to the two lists and reset the
accumulator; finally yield the event unchanged (pure passthrough). -/

structure AVPMState where
  counter : ℕ
  start_time : ℚ
  average_values_timestamp : List ℚ
  total_value : ℚ
  average_values : List ℚ
deriving DecidableEq, Repr

/-- One iteration of the `AverageValuesPerMinute.handle` loop body (state
update only; the event is yielded unchanged either way). -/
def avpm_step (s : AVPMState) (te : TimedEvent) : AVPMState :=
  let total := s.total_value + te.2.value
  let count := s.counter + 1
  if te.1 - s.start_time ≥ 60 then
    { counter := 0
      start_time := te.1
      average_values_timestamp := s.average_values_timestamp ++ [te.1]
      total_value := 0
      average_values := s.average_values ++ [total / (count : ℚ)] }
  else
    { s with counter := count, total_value := total }

/-- `AverageValuesPerMinute.handle` over a finite pulled list. -/
def avpm_handle : AVPMState → List TimedEvent → List TimedEvent × AVPMState
  | s, [] => ([], s)
  | s, te :: rest =>
    let r := avpm_handle (avpm_step s te) rest
    (te :: r.1, r.2)

/-- Fresh `AverageValuesPerMinute()` state, constructed at wall-clock
time `t`. -/
def avpm_init (t : ℚ) : AVPMState := ⟨0, t, [], 0, []⟩

def avpm_stage : Stage AVPMState := avpm_handle

/-- Ghost decomposition of a pulled event list into the value windows that
`AverageValuesPerMinute` closes.  Arguments: current window start, the
values pending in the open window, the remaining events.  Result: the list
of closed windows (each the values accumulated when the close fired,
including the value of the closing event) and the values left pending when
the stream ends.  This definition follows the window arithmetic of the spec
and is related to the source embedding by proof. -/
def avpm_windows : ℚ → List ℚ → List TimedEvent → List (List ℚ) × List ℚ
  | _, pend, [] => ([], pend)
  | start, pend, te :: rest =>
    if te.1 - start ≥ 60 then
      let r := avpm_windows te.1 [] rest
      ((pend ++ [te.2.value]) :: r.1, r.2)
    else
      avpm_windows start (pend ++ [te.2.value]) rest

/-! ValuesPerLocation and its per-location accumulators
(src/gasmon/pipeline.py, classes ValuesPerLocation, EventLocationContainer
and ValuesAtLocation). -/

/-- ValuesAtLocation of the pipeline module: coordinates, id, observed
values, and the `counter` field that `average` mutates. -/
structure VAL where
  x_location : ℚ
  y_location : ℚ
  id : String
  values : List ℚ
  counter : ℕ
deriving DecidableEq, Repr

/-- `ValuesAtLocation.__init__` from a location. -/
def val_init (loc : Location) : VAL := ⟨loc.x, loc.y, loc.id, [], 0⟩

/-- `ValuesAtLocation.average` of the pipeline module: sums the values
while incrementing `self.counter` once per value; returns the running
`total` (zero) when the counter is still zero, and otherwise divides by
`len(self.values)` — a division that raises ZeroDivisionError in Python
when `values` is empty, embedded as `none`.  Returns the result together
with the mutated accumulator. -/
def val_average (v : VAL) : Option ℚ × VAL :=
  let total := v.values.sum
  let c := v.counter + v.values.length
  if c = 0 then
    (some total, { v with counter := c })
  else if v.values.length = 0 then
    (none, { v with counter := c })
  else
    (some (total / (v.values.length : ℚ)), { v with counter := c })

/-- `EventLocationContainer.__init__`: one ValuesAtLocation per location. -/
def container_init (locations : List Location) : List VAL :=
  locations.map val_init

/-- `EventLocationContainer.add_event`: append the value to every
accumulator whose id matches the `location_id` of the event. -/
def add_event (c : List VAL) (e : Event) : List VAL :=
  c.map (fun v =>
    if e.location_id = v.id then { v with values := v.values ++ [e.value] } else v)

/-- `EventLocationContainer.get_reported_locations`: the accumulators that
hold at least one value, in container order. -/
def get_reported_locations (c : List VAL) : List VAL :=
  c.filter (fun v => v.values.length > 0)

/-- ValuesPerLocation stage state: the event-location container plus the
`start_time` and `current_time` fields its loop rewrites (the plotting
guard that read them is commented out in the source). -/
structure VPLState where
  container : List VAL
  start_time : ℚ
  current_time : ℚ
deriving DecidableEq, Repr

/-- `ValuesPerLocation.handle`: per pulled event, `add_event` into the
container, refresh the two clock fields, and yield the event unchanged. -/
def vpl_handle : VPLState → List TimedEvent → List TimedEvent × VPLState
  | s, [] => ([], s)
  | s, te :: rest =>
    let s2 : VPLState := ⟨add_event s.container te.2, te.1, te.1⟩
    let r := vpl_handle s2 rest
    (te :: r.1, r.2)

/-- `ValuesPerLocation.__init__`: fresh container, both clock fields zero. -/
def vpl_init (locations : List Location) : VPLState :=
  ⟨container_init locations, 0, 0⟩

def vpl_stage : Stage VPLState := vpl_handle

/-! MatchLocation (src/gasmon/pipeline.py, class MatchLocation).

Unused by `main`, but present in the module: for each pulled event it
yields one rewritten tuple per location whose id matches, and yields
nothing when no location matches. -/

/-- The namedtuple built inside `MatchLocation.handle`, with fields
`x_location y_location event_id value timestamp`. -/
structure MatchedEvent where
  x_location : ℚ
  y_location : ℚ
  event_id : String
  value : ℚ
  timestamp : ℚ
deriving DecidableEq, Repr

/-- `MatchLocation.handle` over a finite pulled list. -/
def match_location_handle (locations : List Location) : List Event → List MatchedEvent
  | [] => []
  | old :: rest =>
    (locations.filterMap (fun loc =>
      if old.location_id = loc.id then
        some ⟨loc.x, loc.y, old.event_id, old.value, old.timestamp⟩
      else none)) ++ match_location_handle locations rest

/-! The composed pipeline built by `main` (src/gasmon/__init__.py):

`pipeline = values_per_location.compose(average_values.compose(
remove_duplicates.compose(fixed_duration_source)))`

where `a.compose(b)` handles events as `b.handle(a.handle(events))`. -/

/-- The fully composed pipeline of `main`, exactly as the source composes
it. -/
def mainPipeline (run_time_seconds t0 : ℚ) :
    Stage (VPLState × (AVPMState × (RDState × ℕ))) :=
  compose vpl_stage (compose avpm_stage (compose rd_stage (fds_stage run_time_seconds t0)))

/-- Modelled from the spec wording of the data flow (raw events →
DurationBoundedSource → WindowedDeduplicator → WindowedAverager →
LocationAggregator): the claimed composed handle is
`ValuesPerLocation.handle(AverageValuesPerMinute.handle(
RemoveDuplicates.handle(FixedDurationSource.handle(input))))`.  Declared
for comparison with `mainPipeline`, which follows the source. -/
def specOrderPipeline (run_time_seconds t0 : ℚ) :
    Stage (ℕ × (RDState × (AVPMState × VPLState))) :=
  compose (fds_stage run_time_seconds t0) (compose rd_stage (compose avpm_stage vpl_stage))

/-! Sink module (src/gasmon/sink.py).

The sink module has its own EventLocationContainer and ValuesAtLocation
pair.  Its `ValuesAtLocation.average` has no zero guard: it returns
`total / len(self.values)` unconditionally, so an empty accumulator raises
ZeroDivisionError (embedded as `none`). -/

/-- ValuesAtLocation of the sink module (no `counter` field). -/
structure SinkVAL where
  x_location : ℚ
  y_location : ℚ
  id : String
  values : List ℚ
deriving DecidableEq, Repr

/-- sink.py `ValuesAtLocation.average`: unguarded `total / len(self.values)`. -/
def sink_val_average (v : SinkVAL) : Option ℚ :=
  if v.values.length = 0 then none
  else some (v.values.sum / (v.values.length : ℚ))

/-- sink.py `EventLocationContainer.__init__`. -/
def sink_container_init (locations : List Location) : List SinkVAL :=
  locations.map (fun loc => ⟨loc.x, loc.y, loc.id, []⟩)

/-- sink.py `EventLocationContainer.add_event`. -/
def sink_add_event (c : List SinkVAL) (e : Event) : List SinkVAL :=
  c.map (fun v =>
    if e.location_id = v.id then { v with values := v.values ++ [e.value] } else v)

/-- The container that sink.py `ValuesPerLocation.handle` has built once
the stream is drained: fresh per-location accumulators fed every event. -/
def sink_final_container (locations : List Location) (events : List Event) : List SinkVAL :=
  events.foldl sink_add_event (sink_container_init locations)

/-- Calling `location.average()` on every accumulator of a container in
order, propagating ZeroDivisionError (`none`) when any call raises. -/
def collect_averages : List SinkVAL → Option (List ℚ)
  | [] => some []
  | v :: rest =>
    match sink_val_average v, collect_averages rest with
    | some a, some rest_avgs => some (a :: rest_avgs)
    | _, _ => none

/-- The end-of-stream summary of sink.py `ValuesPerLocation.handle`: both
`PlotValues.__init__` and the final print loop call `location.average()`
on every configured location, so the summary is the list of all
per-location averages and fails (`none`) as soon as one accumulator is
empty. -/
def sink_vpl_summary (locations : List Location) (events : List Event) : Option (List ℚ) :=
  collect_averages (sink_final_container locations events)

/-! Concrete sample data used by the witnesses and counterexamples: the
events of the de-duplication test scenario and one location. -/

/-- Sample event: location A, id 1, value 10. -/
def evA : Event := ⟨"A", "1", 10, 0⟩

/-- Sample event: location B, id 2, value 20. -/
def evB : Event := ⟨"B", "2", 20, 0⟩

/-- Sample location with id A. -/
def locA : Location := ⟨0, 0, "A"⟩

/-! Helper lemmas. -/

/-- `ValuesPerLocation.handle` yields every pulled event unchanged. -/
theorem vpl_handle_fst (s : VPLState) (l : List TimedEvent) : (vpl_handle s l).1 = l := by
  induction l generalizing s with
  | nil => rfl
  | cons te rest ih => simp [vpl_handle, ih]

/-- `AverageValuesPerMinute.handle` yields every pulled event unchanged. -/
theorem avpm_handle_fst (s : AVPMState) (l : List TimedEvent) : (avpm_handle s l).1 = l := by
  induction l generalizing s with
  | nil => rfl
  | cons te rest ih => simp [avpm_handle, ih]

/-- Every event forwarded by `FixedDurationSource.handle` was checked
against the deadline and found early. -/
theorem fds_out_before_deadline (end_time : ℚ) (l : List TimedEvent) :
    ∀ te ∈ (fds_run end_time l).out, te.1 < end_time := by
  induction l with
  | nil => intro te hte; simp [fds_run] at hte
  | cons hd rest ih =>
    intro te hte
    by_cases h : hd.1 < end_time
    · simp only [fds_run, if_pos h] at hte
      rcases List.mem_cons.mp hte with rfl | h2
      · exact h
      · exact ih te h2
    · simp [fds_run, h] at hte

/-- `EventLocationContainer.add_event` leaves the container unchanged when
no accumulator id matches the event. -/
theorem add_event_no_match (e : Event) :
    ∀ c : List VAL, (∀ v ∈ c, e.location_id ≠ v.id) → add_event c e = c := by
  intro c
  induction c with
  | nil => intro _; rfl
  | cons v rest ih =>
    intro h
    have h1 : e.location_id ≠ v.id := h v (List.mem_cons_self _ _)
    have h2 := ih (fun u hu => h u (List.mem_cons_of_mem _ hu))
    simp only [add_event, List.map_cons] at h2 ⊢
    rw [if_neg h1, h2]

/-- Collecting the averages of a container fails as soon as one
accumulator fails. -/
theorem collect_averages_eq_none :
    ∀ c : List SinkVAL, (∃ v ∈ c, sink_val_average v = none) →
      collect_averages c = none := by
  intro c
  induction c with
  | nil => rintro ⟨v, hv, _⟩; cases hv
  | cons x rest ih =>
    rintro ⟨v, hv, hfv⟩
    rcases List.mem_cons.mp hv with rfl | hmem
    · simp [collect_averages, hfv]
    · cases hfx : sink_val_average x with
      | none => simp [collect_averages, hfx]
      | some b => simp [collect_averages, hfx, ih ⟨v, hmem, hfv⟩]

/-- An accumulator of the sink container whose id never matches any event
keeps its value list across the whole stream. -/
theorem sink_no_match_preserved (loc_id : String) :
    ∀ (events : List Event) (c : List SinkVAL),
      (∀ e ∈ events, e.location_id ≠ loc_id) →
      ∀ v ∈ c, v.id = loc_id →
      ∃ v2 ∈ events.foldl sink_add_event c, v2.id = loc_id ∧ v2.values = v.values := by
  intro events
  induction events with
  | nil =>
    intro c _ v hv hid
    exact ⟨v, hv, hid, rfl⟩
  | cons e rest ih =>
    intro c hne v hv hid
    have he : e.location_id ≠ v.id := by
      rw [hid]; exact hne e (List.mem_cons_self _ _)
    have hv2 : v ∈ sink_add_event c e := by
      have himg : (if e.location_id = v.id
          then { v with values := v.values ++ [e.value] } else v) = v := if_neg he
      simpa [sink_add_event, himg] using List.mem_map_of_mem
        (fun u => if e.location_id = u.id
          then { u with values := u.values ++ [e.value] } else u) hv
    have := ih (sink_add_event c e)
      (fun u hu => hne u (List.mem_cons_of_mem _ hu)) v hv2 hid
    simpa [List.foldl_cons] using this

/-! Claim theorems. -/

/-- C6: composition of stages is associative: for any stages A, B, C with
any initial states and any finite input sequence, composing as
`compose(compose(A,B),C)` and as `compose(A,compose(B,C))` yields the same
output event sequence. -/
theorem compose_assoc {σ τ υ : Type} (A : Stage σ) (B : Stage τ) (C : Stage υ)
    (sa : σ) (sb : τ) (sc : υ) (l : List TimedEvent) :
    (compose (compose A B) C ((sa, sb), sc) l).1
      = (compose A (compose B C) (sa, (sb, sc)) l).1 := rfl

/-- C1 (amended): the pipeline composed by `main` applies the stages to the
raw event stream in the order ValuesPerLocation (LocationAggregator), then
AverageValuesPerMinute (WindowedAverager), then RemoveDuplicates
(WindowedDeduplicator), then FixedDurationSource (DurationBoundedSource):
for every input sequence the composed handle equals
`FixedDurationSource.handle(RemoveDuplicates.handle(
AverageValuesPerMinute.handle(ValuesPerLocation.handle(input))))`,
the reverse of the order the spec describes. -/
theorem mainPipeline_actual_order (run_time_seconds t0 : ℚ) (sv : VPLState)
    (sa : AVPMState) (sr : RDState) (n : ℕ) (l : List TimedEvent) :
    mainPipeline run_time_seconds t0 (sv, (sa, (sr, n))) l
      = ((fds_stage run_time_seconds t0 n
            (rd_handle sr (avpm_handle sa (vpl_handle sv l).1).1).1).1,
         ((vpl_handle sv l).2,
          ((avpm_handle sa (vpl_handle sv l).1).2,
           ((rd_handle sr (avpm_handle sa (vpl_handle sv l).1).1).2,
            (fds_stage run_time_seconds t0 n
              (rd_handle sr (avpm_handle sa (vpl_handle sv l).1).1).1).2)))) := rfl

/-- C1 counterexample: the composed handle of `main` does not equal the
spec-order nesting.  On the input of three events (a duplicated reading at
location A and one reading at B) with a generous deadline, the pipeline of
`main` leaves `events_processed = 2` on the FixedDurationSource (it sits
last and sees the de-duplicated stream) and `[10, 10]` in the accumulator
of location A (ValuesPerLocation sits first and sees the duplicate), while
the spec-order nesting leaves `events_processed = 3` and `[10]`. -/
theorem mainPipeline_spec_order_refuted :
    (mainPipeline 1000 0 (vpl_init [locA], (avpm_init 0, (rd_init 0, 0)))
        [(1, evA), (2, evA), (3, evB)]).2.2.2.2 = 2
    ∧ (specOrderPipeline 1000 0 (0, (rd_init 0, (avpm_init 0, vpl_init [locA])))
        [(1, evA), (2, evA), (3, evB)]).2.1 = 3
    ∧ (mainPipeline 1000 0 (vpl_init [locA], (avpm_init 0, (rd_init 0, 0)))
        [(1, evA), (2, evA), (3, evB)]).2.1.container.map VAL.values = [[10, 10]]
    ∧ (specOrderPipeline 1000 0 (0, (rd_init 0, (avpm_init 0, vpl_init [locA])))
        [(1, evA), (2, evA), (3, evB)]).2.2.2.2.container.map VAL.values = [[10]] := by
  norm_num [mainPipeline, specOrderPipeline, compose, vpl_stage, avpm_stage, rd_stage,
    fds_stage, vpl_handle, avpm_handle, avpm_step, rd_handle, rd_step, fds_run,
    vpl_init, avpm_init, rd_init, container_init, val_init, add_event, evA, evB, locA]
  decide

/-- C4: FixedDurationSource forwards zero events when
`run_time_seconds <= 0` at pull time (every pull happens no earlier than
the instant `t0` at which the deadline was computed), and it never forwards
an event pulled at or after the deadline `t0 + run_time_seconds`. -/
theorem fds_duration_bound (run_time_seconds t0 : ℚ) (l : List TimedEvent)
    (hpull : ∀ te ∈ l, t0 ≤ te.1) :
    (run_time_seconds ≤ 0 → (fds_run (t0 + run_time_seconds) l).out = [])
    ∧ (∀ te ∈ (fds_run (t0 + run_time_seconds) l).out, te.1 < t0 + run_time_seconds) := by
  constructor
  · intro hrun
    cases l with
    | nil => rfl
    | cons hd rest =>
      have h1 : t0 ≤ hd.1 := hpull hd (List.mem_cons_self _ _)
      have h2 : ¬ hd.1 < t0 + run_time_seconds := by linarith
      simp [fds_run, h2]
  · exact fds_out_before_deadline _ l

/-- C5 counterexample: when the deadline has passed, the `for` loop of
`FixedDurationSource.handle` still pulls one more item from upstream before
the check fires, so on this one-event late input it consumes 1 upstream
item while forwarding 0 events — consumed does not equal forwarded. -/
theorem fds_consumed_exceeds_forwarded :
    (fds_run 5 [(10, evA)]).events_processed = 0
    ∧ (fds_run 5 [(10, evA)]).consumed = 1
    ∧ (fds_run 5 [(10, evA)]).consumed ≠ (fds_run 5 [(10, evA)]).events_processed := by
  norm_num [fds_run, evA]

/-- C5 (amended): when every upstream item arrives before the deadline the
source consumes exactly as many upstream items as it forwards, but when
some item arrives at or after the deadline the source stops by pulling one
further upstream item that it discards, so it consumes exactly one more
item than it forwards. -/
theorem fds_consumed_count (end_time : ℚ) (l : List TimedEvent) :
    ((∀ te ∈ l, te.1 < end_time) →
      (fds_run end_time l).consumed = (fds_run end_time l).events_processed)
    ∧ ((∃ te ∈ l, ¬ te.1 < end_time) →
      (fds_run end_time l).consumed = (fds_run end_time l).events_processed + 1) := by
  induction l with
  | nil =>
    refine ⟨fun _ => rfl, ?_⟩
    rintro ⟨a, ha, _⟩
    cases ha
  | cons hd rest ih =>
    by_cases h : hd.1 < end_time
    · constructor
      · intro hall
        have hr := ih.1 (fun te hte => hall te (List.mem_cons_of_mem _ hte))
        simp [fds_run, h, hr]
      · rintro ⟨te, hte, hlate⟩
        have hte2 : te ∈ rest := by
          rcases List.mem_cons.mp hte with rfl | h2
          · exact absurd h hlate
          · exact h2
        have hr := ih.2 ⟨te, hte2, hlate⟩
        simp [fds_run, h, hr]
    · constructor
      · intro hall
        exact absurd (hall hd (List.mem_cons_self _ _)) h
      · intro _
        simp [fds_run, h]

/-- C2: for two events with identical eventId pulled by RemoveDuplicates
within the same open window, exactly one (the first) is forwarded and the
duplicate counter increases by exactly one; concretely, the fresh-window
input of a duplicated location-A reading followed by a location-B reading
yields just the first A reading and the B reading, with the counter
ending at 1. -/
theorem rd_dedup_same_window :
    (∀ (s : RDState) (t1 t2 : ℚ) (e1 e2 : Event),
      e1.event_id = e2.event_id →
      e1.event_id ∉ s.event_id_cache →
      t1 - s.start_time < 300 →
      t2 - s.start_time < 300 →
      (rd_handle s [(t1, e1), (t2, e2)]).1 = [(t1, e1)]
        ∧ (rd_handle s [(t1, e1), (t2, e2)]).2.counter = s.counter + 1)
    ∧ (rd_handle (rd_init 0) [(1, evA), (2, evA), (3, evB)]).1 = [(1, evA), (3, evB)]
    ∧ (rd_handle (rd_init 0) [(1, evA), (2, evA), (3, evB)]).2.counter = 1 := by
  refine ⟨?_, ?_, ?_⟩
  · intro s t1 t2 e1 e2 hid hnot h1 h2
    have h1n : ¬ (t1 - s.start_time ≥ 300) := not_le.mpr h1
    have h2n : ¬ (t2 - s.start_time ≥ 300) := not_le.mpr h2
    have hmem : e2.event_id ∈ e1.event_id :: s.event_id_cache := by
      rw [← hid]; exact List.mem_cons_self _ _
    simp [rd_handle, rd_step, h1n, h2n, hnot, hmem]
  · norm_num [rd_handle, rd_step, rd_init, evA, evB]
    decide
  · norm_num [rd_handle, rd_step, rd_init, evA, evB]
    decide

/-- C8: pipeline ValuesAtLocation.average returns 0, raising no error, for
an empty accumulator (whose mutated counter is then necessarily still
zero, since the counter only ever grows by the length of the value list),
and returns the arithmetic mean of the accumulated values for a non-empty
accumulator. -/
theorem val_average_mean (v : VAL) (hreach : v.values = [] → v.counter = 0) :
    (v.values = [] → (val_average v).1 = some 0)
    ∧ (v.values ≠ [] → (val_average v).1
        = some (v.values.sum / (v.values.length : ℚ))) := by
  constructor
  · intro hemp
    have hc : v.counter = 0 := hreach hemp
    simp [val_average, hemp, hc]
  · intro hne
    have hlen : v.values.length ≠ 0 := by
      simpa [List.length_eq_zero] using hne
    have hc : ¬ (v.counter + v.values.length = 0) := by omega
    simp [val_average, hc, hlen]

/-- C9: the location-join stage (ValuesPerLocation) forwards every pulled
event downstream unchanged — its output sequence equals its input sequence
for every finite input — and an event whose location_id matches no
location id of the static set updates no accumulator of a container whose
ids all come from that set. -/
theorem vpl_join_passthrough :
    (∀ (s : VPLState) (l : List TimedEvent), (vpl_handle s l).1 = l)
    ∧ (∀ (locations : List Location) (c : List VAL) (e : Event),
        (∀ v ∈ c, v.id ∈ locations.map Location.id) →
        e.location_id ∉ locations.map Location.id →
        add_event c e = c) := by
  refine ⟨vpl_handle_fst, ?_⟩
  intro locations c e hids hno
  refine add_event_no_match e c ?_
  intro v hv heq
  exact hno (by rw [heq]; exact hids v hv)

/-- C10: the sink-module average divides by the length of the value list
with no guard, so it is undefined (ZeroDivisionError, embedded as `none`)
for every empty accumulator; and since the end-of-stream summary of sink
ValuesPerLocation calls average() on every configured location, the
summary fails whenever at least one configured location received no
matching event. -/
theorem sink_average_empty_crash :
    (∀ v : SinkVAL, v.values = [] → sink_val_average v = none)
    ∧ (∀ (locations : List Location) (events : List Event) (loc : Location),
        loc ∈ locations →
        (∀ e ∈ events, e.location_id ≠ loc.id) →
        sink_vpl_summary locations events = none) := by
  constructor
  · intro v hv
    simp [sink_val_average, hv]
  · intro locations events loc hloc hne
    have hv0 : (⟨loc.x, loc.y, loc.id, []⟩ : SinkVAL) ∈ sink_container_init locations :=
      List.mem_map_of_mem _ hloc
    obtain ⟨v2, hv2mem, hv2id, hv2vals⟩ :=
      sink_no_match_preserved loc.id events (sink_container_init locations) hne _ hv0 rfl
    have hnone : sink_val_average v2 = none := by
      simp [sink_val_average, hv2vals]
    exact collect_averages_eq_none _ ⟨v2, hv2mem, hnone⟩

/-- Window decomposition invariant for AverageValuesPerMinute: starting
from a state whose accumulator holds exactly the pending values `pend`,
running `handle` appends to `average_values` exactly one entry per closed
window, equal to the sum of the values of that window divided by their
count; every closed window is non-empty; the final accumulator holds
exactly the values still pending; and the closed windows followed by the
final pending values partition, in order, the pending values plus the
pulled values. -/
theorem avpm_decomp (l : List TimedEvent) : ∀ (s : AVPMState) (pend : List ℚ),
    s.total_value = pend.sum → s.counter = pend.length →
    (avpm_handle s l).2.average_values
        = s.average_values
          ++ ((avpm_windows s.start_time pend l).1).map (fun w => w.sum / (w.length : ℚ))
    ∧ (avpm_handle s l).2.counter = (avpm_windows s.start_time pend l).2.length
    ∧ (avpm_handle s l).2.total_value = (avpm_windows s.start_time pend l).2.sum
    ∧ (∀ w ∈ (avpm_windows s.start_time pend l).1, w ≠ [])
    ∧ ((avpm_windows s.start_time pend l).1).flatten
        ++ (avpm_windows s.start_time pend l).2
        = pend ++ l.map (fun te => te.2.value) := by
  induction l with
  | nil =>
    intro s pend htot hcnt
    simp [avpm_handle, avpm_windows, htot, hcnt]
  | cons te rest ih =>
    intro s pend htot hcnt
    have hsnd : (avpm_handle s (te :: rest)).2 = (avpm_handle (avpm_step s te) rest).2 := rfl
    by_cases h : te.1 - s.start_time ≥ 60
    · obtain ⟨ha, hc, ht, hw, hj⟩ := ih (avpm_step s te) []
        (by simp [avpm_step, h]) (by simp [avpm_step, h])
      have hst : (avpm_step s te).start_time = te.1 := by simp [avpm_step, h]
      have havg : (avpm_step s te).average_values
          = s.average_values
            ++ [(pend ++ [te.2.value]).sum / ((pend ++ [te.2.value]).length : ℚ)] := by
        simp [avpm_step, h, htot, hcnt, List.sum_append, List.length_append]
      rw [hst] at ha hc ht hw hj
      simp only [List.nil_append] at hj
      have hwin : avpm_windows s.start_time pend (te :: rest)
          = ((pend ++ [te.2.value]) :: (avpm_windows te.1 [] rest).1,
             (avpm_windows te.1 [] rest).2) := by
        simp [avpm_windows, h]
      rw [hsnd, hwin]
      refine ⟨?_, hc, ht, ?_, ?_⟩
      · rw [ha, havg]
        simp
      · intro w hw2
        rcases List.mem_cons.mp hw2 with rfl | hmem
        · simp
        · exact hw w hmem
      · simp [List.flatten_cons, List.append_assoc, hj]
    · obtain ⟨ha, hc, ht, hw, hj⟩ := ih (avpm_step s te) (pend ++ [te.2.value])
        (by simp [avpm_step, h, htot, List.sum_append])
        (by simp [avpm_step, h, hcnt, List.length_append])
      have hst : (avpm_step s te).start_time = s.start_time := by simp [avpm_step, h]
      have havg : (avpm_step s te).average_values = s.average_values := by
        simp [avpm_step, h]
      rw [hst] at ha hc ht hw hj
      have hwin : avpm_windows s.start_time pend (te :: rest)
          = avpm_windows s.start_time (pend ++ [te.2.value]) rest := by
        simp [avpm_windows, h]
      rw [hsnd, hwin]
      refine ⟨?_, hc, ht, hw, ?_⟩
      · rw [ha, havg]
      · rw [hj]
        simp

/-- C3: every average that AverageValuesPerMinute appends on a window
close equals the sum of the values accumulated in that window divided by
the count of values accumulated in that window, and every closed window
is non-empty (the close check runs only after the counter was incremented
in the same step), so the divisor is positive. -/
theorem avpm_emitted_average_correct (l : List TimedEvent) (s : AVPMState) (pend : List ℚ)
    (htot : s.total_value = pend.sum) (hcnt : s.counter = pend.length) :
    (avpm_handle s l).2.average_values
      = s.average_values
        ++ ((avpm_windows s.start_time pend l).1).map (fun w => w.sum / (w.length : ℚ))
    ∧ ∀ w ∈ (avpm_windows s.start_time pend l).1, 0 < w.length := by
  obtain ⟨ha, _, _, hw, _⟩ := avpm_decomp l s pend htot hcnt
  exact ⟨ha, fun w hmem => List.length_pos.mpr (hw w hmem)⟩

/-- C7: when the stream ends while AverageValuesPerMinute holds a partial
window (positive final counter), the emitted averages are exactly those of
the closed windows, and the pending values — exactly the non-empty tail of
the stream values not covered by any closed window — are discarded with no
average emitted for them. -/
theorem avpm_partial_window_discarded (l : List TimedEvent) (s : AVPMState) (pend : List ℚ)
    (htot : s.total_value = pend.sum) (hcnt : s.counter = pend.length)
    (hpart : 0 < (avpm_handle s l).2.counter) :
    (avpm_handle s l).2.average_values
      = s.average_values
        ++ ((avpm_windows s.start_time pend l).1).map (fun w => w.sum / (w.length : ℚ))
    ∧ (avpm_windows s.start_time pend l).2 ≠ []
    ∧ ((avpm_windows s.start_time pend l).1).flatten
        ++ (avpm_windows s.start_time pend l).2
        = pend ++ l.map (fun te => te.2.value) := by
  obtain ⟨ha, hc, _, _, hj⟩ := avpm_decomp l s pend htot hcnt
  refine ⟨ha, ?_, hj⟩
  intro hemps
  rw [hc, hemps] at hpart
  simp at hpart

/-! Witnesses: each applies the claim theorem at a concrete input and
discharges its hypotheses there. -/

/-- Witness for C2 at a concrete same-window duplicated pair. -/
theorem rd_dedup_same_window_witness :
    (evA.event_id = evA.event_id
      ∧ evA.event_id ∉ (rd_init 0).event_id_cache
      ∧ (1 : ℚ) - (rd_init 0).start_time < 300
      ∧ (2 : ℚ) - (rd_init 0).start_time < 300)
    ∧ (rd_handle (rd_init 0) [(1, evA), (2, evA)]).1 = [(1, evA)]
    ∧ (rd_handle (rd_init 0) [(1, evA), (2, evA)]).2.counter = (rd_init 0).counter + 1 :=
  ⟨⟨rfl, by decide, by norm_num [rd_init], by norm_num [rd_init]⟩,
    (rd_dedup_same_window.1 (rd_init 0) 1 2 evA evA rfl (by decide)
      (by norm_num [rd_init]) (by norm_num [rd_init])).1,
    (rd_dedup_same_window.1 (rd_init 0) 1 2 evA evA rfl (by decide)
      (by norm_num [rd_init]) (by norm_num [rd_init])).2⟩

/-- Witness for C3 at a fresh averager pulling one closing event. -/
theorem avpm_emitted_average_correct_witness :
    ((avpm_init 0).total_value = ([] : List ℚ).sum
      ∧ (avpm_init 0).counter = ([] : List ℚ).length)
    ∧ ((avpm_handle (avpm_init 0) [(61, evA)]).2.average_values
        = (avpm_init 0).average_values
          ++ ((avpm_windows (avpm_init 0).start_time [] [(61, evA)]).1).map
              (fun w => w.sum / (w.length : ℚ))
      ∧ ∀ w ∈ (avpm_windows (avpm_init 0).start_time [] [(61, evA)]).1, 0 < w.length) :=
  ⟨⟨rfl, rfl⟩, avpm_emitted_average_correct [(61, evA)] (avpm_init 0) [] rfl rfl⟩

/-- Witness for C4 at a non-positive run duration. -/
theorem fds_duration_bound_witness :
    (∀ te ∈ [((0 : ℚ), evA)], (0 : ℚ) ≤ te.1)
    ∧ (((0 : ℚ) ≤ 0 → (fds_run ((0 : ℚ) + 0) [((0 : ℚ), evA)]).out = [])
      ∧ ∀ te ∈ (fds_run ((0 : ℚ) + 0) [((0 : ℚ), evA)]).out, te.1 < (0 : ℚ) + 0) :=
  ⟨by simp, fds_duration_bound 0 0 [((0 : ℚ), evA)] (by simp)⟩

/-- Witness for C5 (amended) at a one-event input arriving after the
deadline. -/
theorem fds_consumed_count_witness :
    (∃ te ∈ [((10 : ℚ), evA)], ¬ te.1 < 5)
    ∧ (fds_run 5 [((10 : ℚ), evA)]).consumed
        = (fds_run 5 [((10 : ℚ), evA)]).events_processed + 1 :=
  ⟨⟨(10, evA), by simp, by norm_num⟩,
    (fds_consumed_count 5 [((10 : ℚ), evA)]).2 ⟨(10, evA), by simp, by norm_num⟩⟩

/-- Witness for C7 at a fresh averager whose single pulled event leaves a
partial window behind. -/
theorem avpm_partial_window_discarded_witness :
    ((avpm_init 0).total_value = ([] : List ℚ).sum
      ∧ (avpm_init 0).counter = ([] : List ℚ).length
      ∧ 0 < (avpm_handle (avpm_init 0) [(1, evA)]).2.counter)
    ∧ ((avpm_handle (avpm_init 0) [(1, evA)]).2.average_values
        = (avpm_init 0).average_values
          ++ ((avpm_windows (avpm_init 0).start_time [] [(1, evA)]).1).map
              (fun w => w.sum / (w.length : ℚ))
      ∧ (avpm_windows (avpm_init 0).start_time [] [(1, evA)]).2 ≠ []
      ∧ ((avpm_windows (avpm_init 0).start_time [] [(1, evA)]).1).flatten
          ++ (avpm_windows (avpm_init 0).start_time [] [(1, evA)]).2
          = [] ++ [((1 : ℚ), evA)].map (fun te => te.2.value)) :=
  ⟨⟨rfl, rfl, by norm_num [avpm_handle, avpm_step, avpm_init]⟩,
    avpm_partial_window_discarded [(1, evA)] (avpm_init 0) [] rfl rfl
      (by norm_num [avpm_handle, avpm_step, avpm_init])⟩

/-- Witness for C8 at a freshly constructed empty accumulator. -/
theorem val_average_mean_witness :
    ((val_init locA).values = [] → (val_init locA).counter = 0)
    ∧ (((val_init locA).values = [] → (val_average (val_init locA)).1 = some 0)
      ∧ ((val_init locA).values ≠ [] → (val_average (val_init locA)).1
          = some ((val_init locA).values.sum / ((val_init locA).values.length : ℚ)))) :=
  ⟨fun _ => rfl, val_average_mean (val_init locA) (fun _ => rfl)⟩

/-- Witness for C9 at an unmatched event against a one-location set. -/
theorem vpl_join_passthrough_witness :
    ((∀ v ∈ [val_init locA], v.id ∈ [locA].map Location.id)
      ∧ evB.location_id ∉ [locA].map Location.id)
    ∧ add_event [val_init locA] evB = [val_init locA] :=
  ⟨⟨by decide, by decide⟩,
    vpl_join_passthrough.2 [locA] [val_init locA] evB (by decide) (by decide)⟩

/-- Witness for C10 at a configured location that receives no event. -/
theorem sink_average_empty_crash_witness :
    (locA ∈ [locA] ∧ ∀ e ∈ [evB], e.location_id ≠ locA.id)
    ∧ sink_vpl_summary [locA] [evB] = none :=
  ⟨⟨List.mem_singleton.mpr rfl, by decide⟩,
    sink_average_empty_crash.2 [locA] [evB] locA (List.mem_singleton.mpr rfl) (by decide)⟩

end Gasmon
